import Mathlib

/-
Shallow embedding of the climatus weather-accuracy core:
the ensemble aggregator (src/server/src/services/openMeteoService.ts),
the accuracy reconciliation engine and lease manager
(src/unnamed/part_011, the accuracy service), and the IndexedDB-backed
store (src/unnamed/part_014).

Conventions of the embedding:
- JavaScript numbers are modelled as rationals; a separate constructor
  of the value type marks non-finite numbers, so the code paths guarded
  by typeof-number/isFinite checks stay visible.
- ISO-8601 UTC timestamp strings are modelled as integer milliseconds;
  for same-format ISO strings, string order and chronological order
  coincide, so comparisons translate to integer comparisons.
- IndexedDB object stores are modelled as lists of records in insertion
  order; unique indexes become explicit lookups on the list.
-/

namespace Climatus

/-- Value of a JavaScript field as seen by the dynamic checks in the source:
a finite number, a non-finite number (NaN or infinity), null, undefined, or
a string. The checks `typeof value === "number" && isFinite(value)` accept
exactly the `num` constructor. -/
inductive JsVal where
  | num (q : ℚ)
  | nanv
  | nullv
  | undef
  | strv (s : String)
  deriving DecidableEq, Repr

/-- Extraction used wherever the source guards a value with
`typeof v === "number" && isFinite(v)`. -/
def finiteNum : JsVal → Option ℚ
  | .num q => some q
  | _ => none

/-! ## Constants (src/server/src/constants.ts) -/

/-- Model descriptor, restricted to the fields the embedded functions read:
`key`, `name` and `category` (constants.ts MODELS entries). -/
structure ModelInfo where
  key : String
  name : String
  category : String
  deriving DecidableEq, Repr

/-- MODELS from constants.ts, lines 72-101, projected to key/name/category. -/
def MODELS : List ModelInfo := [
  ⟨"icon_global", "ICON Global 7km", "Global"⟩,
  ⟨"jma_gsm", "JMA GSM 20km", "Global"⟩,
  ⟨"cma_grapes_global", "CMA Grapes 12km", "Global"⟩,
  ⟨"arpege_world", "ARPEGE World 11km", "Global"⟩,
  ⟨"bom_access_global", "ACCESS-G 12km", "Global"⟩,
  ⟨"bom_access_g2", "BOM ACCESS-G 17km", "Global"⟩,
  ⟨"gfs_global", "GFS 11km", "Global"⟩,
  ⟨"gfs_graphcast025", "GFS GraphCast 25km", "Global"⟩,
  ⟨"nam_conus", "NAM Conus 5km", "North American Regional"⟩,
  ⟨"hrrr_subhourly", "HRRR Conus 3km", "North American Regional"⟩,
  ⟨"gem_global", "GEM Global 15km (GDPS)", "Canadian"⟩,
  ⟨"hrdps_continental", "HRDPS Continental 2.5km", "North American Regional"⟩,
  ⟨"gem_regional", "GEM Regional 10km (RDPS)", "Canadian"⟩,
  ⟨"ecmwf_ifs", "ECMWF IFS 9km", "Global"⟩,
  ⟨"aifs025", "AIFS 25km", "Global"⟩,
  ⟨"median_model", "Median of Models", "Derived"⟩,
  ⟨"super_ensemble", "Super Ensemble", "Derived"⟩]

/-- METRICS from constants.ts, lines 103-112, projected to the keys. -/
def METRICS : List String :=
  ["overview", "temperature_2m", "rain", "snowfall", "wind_speed_10m",
   "wind_gusts_10m", "cloud_cover", "visibility"]

/-- TRACKABLE_METRICS from constants.ts line 116:
METRICS minus the composite overview metric. -/
def TRACKABLE_METRICS : List String := METRICS.filter (fun k => k != "overview")

/-- ACCURACY_LOCATIONS from constants.ts lines 12-45, projected to (id, name). -/
def ACCURACY_LOCATIONS : List (ℤ × String) :=
  [(1, "37 Jubilation"), (2, "66 Aspenglen Cres"),
   (3, "Edmonton Airport CYEG"), (4, "Villeneuve Airport CZVL")]

/-- ACCURACY_MAX_FORECAST_HOURS from constants.ts line 52. -/
def ACCURACY_MAX_FORECAST_HOURS : ℤ := 120

/-- ACCURACY_FORECAST_START_HOUR from the accuracy service (part_011 line 8):
minimum lead time, in hours, for a forecast to be scored. -/
def ACCURACY_FORECAST_START_HOUR : ℤ := 1

/-- LEASE_DURATION from the accuracy service (part_011 line 10), in ms. -/
def LEASE_DURATION : ℤ := 90 * 1000

/-- LEASE_ID from the accuracy service (part_011 line 9). -/
def LEASE_ID : String := "accuracy-runner-lease"

/-! ## Ensemble aggregator (openMeteoService.ts) -/

/-- One per-hour record of a processed forecast series
(ProcessedHourlyData): the `time` key plus the metric fields.
The source object also carries `time` among its keys; its value is a
string, never a finite number, so the metric loop of
calculateDerivedModels ignores it. -/
structure HourPoint where
  time : ℤ
  fields : List (String × JsVal)
  deriving DecidableEq, Repr

/-- Processed forecasts for one location and view: model key to hourly
series, in object-key insertion order. -/
abbrev Forecasts := List (String × List HourPoint)

/-- Append a value to the per-metric bucket of `valuesAtTime`, creating the
bucket on first use, exactly as the push in calculateDerivedModels
lines 217-225 does (first-use key order, push order within a key). -/
def pushVal : List (String × List ℚ) → String → ℚ → List (String × List ℚ)
  | [], k, q => [(k, [q])]
  | (k2, vs) :: rest, k, q =>
      if k2 == k then (k2, vs ++ [q]) :: rest else (k2, vs) :: pushVal rest k q

/-- The model keys the aggregator treats as real contributors:
object keys of `forecasts` whose MODELS entry exists and is not in the
Derived category (calculateDerivedModels lines 197-200). -/
def realModelKeys (forecasts : Forecasts) : List String :=
  (forecasts.map (·.1)).filter (fun k =>
    match MODELS.find? (fun m => m.key == k) with
    | some m => m.category != "Derived"
    | none => false)

/-- The `valuesAtTime` map of calculateDerivedModels lines 211-226 for one
timestamp: for each real model in order, find its hour record at `t` and
push every finite numeric field value into the per-metric bucket. -/
def collectValues (forecasts : Forecasts) (keys : List String) (t : ℤ) :
    List (String × List ℚ) :=
  keys.foldl (fun m key =>
    match forecasts.lookup key with
    | none => m
    | some series =>
        match series.find? (fun h => h.time == t) with
        | none => m
        | some hd =>
            hd.fields.foldl (fun m2 p =>
              match finiteNum p.2 with
              | some q => pushVal m2 p.1 q
              | none => m2) m) []

/-- Median computation of calculateDerivedModels lines 233-237: sort the
collected values ascending and take the middle element (odd count) or the
average of the two middle elements (even count). On the empty list (which
the source never passes) it returns 0. -/
def medianOf (l : List ℚ) : ℚ :=
  let sorted := List.insertionSort (fun a b => a ≤ b) l
  let mid := sorted.length / 2
  if sorted.length % 2 != 0 then sorted.getD mid 0
  else (sorted.getD (mid - 1) 0 + sorted.getD mid 0) / 2

/-- Truthiness guard `v && v > 0` on an optional numeric value: passes
exactly when the value is present and strictly positive (an absent or zero
value is falsy and short-circuits). -/
def truthyPos : Option ℚ → Bool
  | some q => decide (0 < q)
  | none => false

/-- Hourly per-model precipitation-type classification of
processIndividualForecasts lines 299-301, on the raw optional rain and
snowfall values. Codes: 0 = none, 1 = rain, 2 = mix, 3 = snow. -/
def classifyHourly (rain snow : Option ℚ) : ℤ :=
  let t1 : ℤ := if truthyPos rain then 1 else 0
  if truthyPos snow then (if t1 = 1 then 2 else 3) else t1

/-- Presence threshold 0.05 of the median reclassification, written as a
normalized rational. -/
def MEDIAN_PRECIP_THRESHOLD : ℚ := mkRat 1 20

/-- Reclassification applied to the median point in calculateDerivedModels
lines 239-245, after defaulting absent rain/snowfall medians to 0:
presence threshold 0.05 on each. -/
def classifyMedian (rain snow : ℚ) : ℤ :=
  let t1 : ℤ := if MEDIAN_PRECIP_THRESHOLD < rain then 1 else 0
  if MEDIAN_PRECIP_THRESHOLD < snow then (if t1 = 1 then 2 else 3) else t1

/-- Assignment `obj[k] = v` on an object modelled as a binding list:
replace the first binding of `k` in place (JavaScript keeps the original
key position), or append a new binding. -/
def setKey {α : Type} : List (String × α) → String → α → List (String × α)
  | [], k, v => [(k, v)]
  | (k2, w) :: rest, k, v =>
      if k2 == k then (k2, v) :: rest else (k2, w) :: setKey rest k v

/-- Body of the per-timestamp loop of calculateDerivedModels
lines 210-251: collect contributing values, skip the timestamp entirely if
no metric contributed, otherwise take per-metric medians and attach the
precipitation type (reclassified from the median rain/snowfall for the
hourly view, null for the daily view). -/
def mkMedianPoint (forecasts : Forecasts) (keys : List String)
    (hourlyView : Bool) (t : ℤ) : Option HourPoint :=
  let valuesAtTime := collectValues forecasts keys t
  if valuesAtTime.isEmpty then none
  else
    let medians := valuesAtTime.map (fun kv => (kv.1, JsVal.num (medianOf kv.2)))
    let pt : JsVal :=
      if hourlyView then
        let rain := ((medians.lookup "rain").bind finiteNum).getD 0
        let snow := ((medians.lookup "snowfall").bind finiteNum).getD 0
        JsVal.num ((classifyMedian rain snow : ℤ) : ℚ)
      else JsVal.nullv
    some ⟨t, setKey medians "precipitation_type" pt⟩

/-- The reference timestamps of calculateDerivedModels line 207: the hourly
series of the first real model key. -/
def referenceTimes (forecasts : Forecasts) (keys : List String) : List ℤ :=
  match keys with
  | [] => []
  | k :: _ => ((forecasts.lookup k).getD []).map (·.time)

/-- The median hourly series built by calculateDerivedModels lines 208-251. -/
def calcMedianHourly (forecasts : Forecasts) (keys : List String)
    (hourlyView : Bool) : List HourPoint :=
  (referenceTimes forecasts keys).filterMap (mkMedianPoint forecasts keys hourlyView)

/-- calculateDerivedModels (openMeteoService.ts lines 195-255): assign the
synthetic median model into the forecasts object, unless no real model is
present (early return at line 204). -/
def calculateDerivedModels (forecasts : Forecasts) (hourlyView : Bool) : Forecasts :=
  match realModelKeys forecasts with
  | [] => forecasts
  | keys => setKey forecasts "median_model" (calcMedianHourly forecasts keys hourlyView)

/-! ## Actual weather store (part_014, addActualWeather lines 133-159) -/

/-- ActualWeatherRecord: location, top-of-hour UTC time (ms), and the metric
fields. The metric fields (temperature_2m, rain, snowfall, wind_speed_10m,
wind_gusts_10m, cloud_cover, visibility), each number-or-null in the source,
are kept as a field list so that the reconciliation lookup
`actual[forecast.metricKey]` is an ordinary key lookup. -/
structure ActualRecord where
  locationId : ℤ
  time : ℤ
  metrics : List (String × JsVal)
  deriving DecidableEq, Repr

/-- Dynamic field read `actual[metricKey]`; keys absent from the record
(including non-metric ones) read as undefined. -/
def getMetric (a : ActualRecord) (k : String) : JsVal :=
  (a.metrics.lookup k).getD JsVal.undef

/-- addActualWeather (part_014 lines 133-159): look the unique
(locationId, time) key up in the index; add the record only when the key is
absent, otherwise leave the store untouched and still complete normally. -/
def addActualWeather (store : List ActualRecord) (r : ActualRecord) :
    List ActualRecord :=
  if store.any (fun a => a.locationId == r.locationId && a.time == r.time)
  then store
  else store ++ [r]

/-! ## Pending forecast store and generation-time filter
(part_011, storeFutureForecasts lines 73-124) -/

/-- PendingForecast row as read back from the store (id assigned by the
auto-increment key). Times in ms, lead time in hours. -/
structure PendingForecast where
  id : ℤ
  locationId : ℤ
  modelKey : String
  metricKey : String
  targetTime : ℤ
  forecastedValue : ℚ
  forecastLeadTimeHours : ℤ
  deriving DecidableEq, Repr

/-- PendingForecast as produced by storeFutureForecasts, before the store
assigns an id (Omit of id in the source). -/
structure NewPendingForecast where
  locationId : ℤ
  modelKey : String
  metricKey : String
  targetTime : ℤ
  forecastedValue : ℚ
  forecastLeadTimeHours : ℤ
  deriving DecidableEq, Repr

/-- Hourly block of a raw model response: the time column plus one column
of values per present parameter key, column-oriented as in the API shape. -/
structure RawHourly where
  time : List ℤ
  data : List (String × List JsVal)
  deriving DecidableEq, Repr

/-- One successful raw model run (OpenMeteoModelResponse with the model key
attached). `generationtime_ms` is read by the source as a Date, so it is a
time in ms here. -/
structure RawResult where
  model : String
  generationtime_ms : ℤ
  hourly : RawHourly
  deriving DecidableEq, Repr

/-- Rounding of JavaScript Math.round: nearest integer, half toward
positive infinity. -/
def jsRound (x : ℚ) : ℤ := ⌊x + 1 / 2⌋

/-- Loop body of storeFutureForecasts (part_011 lines 80-115) for one raw
result: for each index of the hourly time column, drop target hours more
than ACCURACY_MAX_FORECAST_HOURS past `now`, compute the rounded lead time
against generationtime_ms and drop lead times below
ACCURACY_FORECAST_START_HOUR, then keep one forecast point per trackable
metric whose column holds a finite number at that index. -/
def forecastsFromResult (now : ℤ) (locId : ℤ) (r : RawResult) :
    List NewPendingForecast :=
  (List.range r.hourly.time.length).flatMap (fun i =>
    let targetTime := r.hourly.time.getD i 0
    if targetTime > now + ACCURACY_MAX_FORECAST_HOURS * 3600 * 1000 then []
    else
      let forecastLeadTimeHours :=
        jsRound (((targetTime - r.generationtime_ms : ℤ) : ℚ) / 3600000)
      if forecastLeadTimeHours < ACCURACY_FORECAST_START_HOUR then []
      else
        TRACKABLE_METRICS.filterMap (fun mk =>
          match r.hourly.data.lookup mk with
          | none => none
          | some col =>
              match col.getD i JsVal.undef with
              | JsVal.num q =>
                  some ⟨locId, r.model, mk, targetTime, q, forecastLeadTimeHours⟩
              | _ => none))

/-- storeFutureForecasts (part_011 lines 73-124) restricted to one location:
the batch of pending forecast points built from the successful raw model
runs fetched at time `now`. -/
def storeFutureForecasts (now : ℤ) (locId : ℤ) (successes : List RawResult) :
    List NewPendingForecast :=
  successes.flatMap (forecastsFromResult now locId)

/-- Every finite numeric cell present anywhere in the raw results; the pool
the stored forecast values are drawn from. -/
def finiteCells (successes : List RawResult) : List ℚ :=
  successes.flatMap (fun r =>
    r.hourly.data.flatMap (fun kv => kv.2.filterMap finiteNum))

/-! ## Accuracy scores and the reconciliation engine
(part_011 processPastForecasts lines 126-202,
part_014 applyAccuracyUpdatesAndDelete lines 222-290) -/

/-- Lead-time interval bucket (AccuracyInterval in types.ts). -/
inductive AccuracyInterval where
  | h24
  | h48
  | d5
  deriving DecidableEq, Repr

/-- Per-bucket running statistics (AccuracyScoreData). -/
structure ScoreData where
  meanAbsoluteError : ℚ
  hoursTracked : ℕ
  deriving DecidableEq, Repr

/-- The three interval buckets of one metric of one score row. -/
structure MetricScores where
  h24 : ScoreData
  h48 : ScoreData
  d5 : ScoreData
  deriving DecidableEq, Repr

/-- Fresh all-zero buckets, as created by applyAccuracyUpdatesAndDelete
lines 266-272 when a metric is first scored. -/
def zeroMetricScores : MetricScores := ⟨⟨0, 0⟩, ⟨0, 0⟩, ⟨0, 0⟩⟩

/-- AccuracyScore row, keyed by (locationId, modelKey), with the per-metric
buckets as a field list in insertion order. -/
structure AccuracyScore where
  locationId : ℤ
  locationName : String
  modelKey : String
  modelName : String
  scores : List (String × MetricScores)
  deriving DecidableEq, Repr

/-- One score update emitted by processPastForecasts lines 176-183. -/
structure Update where
  locationId : ℤ
  locationName : String
  modelKey : String
  metricKey : String
  error : ℚ
  interval : AccuracyInterval
  deriving DecidableEq, Repr

/-- HistoricalForecastRecord pushed by processPastForecasts lines 185-194. -/
structure HistRecord where
  locationId : ℤ
  modelKey : String
  metricKey : String
  targetTime : ℤ
  forecastLeadTimeHours : ℤ
  forecastedValue : ℚ
  actualValue : ℚ
  error : ℚ
  deriving DecidableEq, Repr

/-- The durable accuracy state the reconciliation pass touches: the four
logical tables, each in insertion order. -/
structure ReconState where
  pending : List PendingForecast
  actuals : List ActualRecord
  scores : List AccuracyScore
  history : List HistRecord
  deriving DecidableEq, Repr

/-- Lead-time bucketing of processPastForecasts lines 171-174. -/
def intervalFor (lead : ℤ) : AccuracyInterval :=
  if lead ≤ 24 then .h24 else if lead ≤ 48 then .h48 else .d5

/-- Incremental MAE update of applyAccuracyUpdatesAndDelete lines 274-278:
newMAE = (oldMAE * oldCount + error) / (oldCount + 1), count incremented. -/
def maeStep (d : ScoreData) (e : ℚ) : ScoreData :=
  { meanAbsoluteError :=
      (d.meanAbsoluteError * d.hoursTracked + e) / (d.hoursTracked + 1),
    hoursTracked := d.hoursTracked + 1 }

/-- Apply one incremental update to the addressed bucket of a metric entry. -/
def bumpMetric (m : MetricScores) (iv : AccuracyInterval) (e : ℚ) : MetricScores :=
  match iv with
  | .h24 => { m with h24 := maeStep m.h24 e }
  | .h48 => { m with h48 := maeStep m.h48 e }
  | .d5 => { m with d5 := maeStep m.d5 e }

/-- Score row produced for `update` by applyAccuracyUpdatesAndDelete
lines 253-281: take the existing row or create a fresh one (model name from
MODELS, falling back to the key), initialise the metric entry to zero
buckets when absent, and apply the incremental MAE update to the addressed
interval bucket. -/
def bumpScore (existing : Option AccuracyScore) (u : Update) : AccuracyScore :=
  let score := match existing with
    | some s => s
    | none =>
        { locationId := u.locationId, locationName := u.locationName,
          modelKey := u.modelKey,
          modelName :=
            match MODELS.find? (fun (m : ModelInfo) => m.key == u.modelKey) with
            | some m => m.name
            | none => u.modelKey,
          scores := [] }
  let current := (score.scores.lookup u.metricKey).getD zeroMetricScores
  { score with
    scores := setKey score.scores u.metricKey
      (bumpMetric current u.interval u.error) }

/-- Read of the unique (locationId, modelKey) primary key in the scores
store. -/
def getScoreEntry (tbl : List AccuracyScore) (lid : ℤ) (mk : String) :
    Option AccuracyScore :=
  tbl.find? (fun s => s.locationId == lid && s.modelKey == mk)

/-- Upsert of `scoresStore.put(score)` on the (locationId, modelKey)
primary key: overwrite the existing row in place or append. -/
def putScoreEntry : List AccuracyScore → AccuracyScore → List AccuracyScore
  | [], s => [s]
  | t :: ts, s =>
      if t.locationId == s.locationId && t.modelKey == s.modelKey
      then s :: ts
      else t :: putScoreEntry ts s

/-- Net effect of the update loop of applyAccuracyUpdatesAndDelete
lines 247-283 on the scores table: fold the updates in order, each one
reading the current row for its (locationId, modelKey) key, bumping it and
writing it back. The source stages this through a scratch Map initialised
from the same reads and written back wholly by `put`; with get/put on the
unique primary key, that is the same table afterwards. -/
def applyUpdatesFold (tbl : List AccuracyScore) (updates : List Update) :
    List AccuracyScore :=
  updates.foldl (fun t u =>
    putScoreEntry t (bumpScore (getScoreEntry t u.locationId u.modelKey) u)) tbl

/-- applyAccuracyUpdatesAndDelete (part_014 lines 222-290), one atomic
transaction: fold the score updates into the scores table, delete every
pending row whose id is listed, and append the historical records. -/
def applyAccuracyUpdatesAndDelete (st : ReconState) (updates : List Update)
    (idsToDelete : List ℤ) (historicalRecordsToAdd : List HistRecord) :
    ReconState :=
  { st with
    scores := applyUpdatesFold st.scores updates,
    pending := st.pending.filter (fun f => !(idsToDelete.contains f.id)),
    history := st.history ++ historicalRecordsToAdd }

/-- Due filter realised by getDuePendingForecasts (part_014 lines 161-171)
at the cutoff processPastForecasts passes (now minus one hour). -/
def duePending (now : ℤ) (pending : List PendingForecast) :
    List PendingForecast :=
  pending.filter (fun f => decide (f.targetTime ≤ now - 3600 * 1000))

/-- Location keys of the `forecastsByLocation` object of
processPastForecasts lines 142-145: JavaScript iterates integer-like object
keys in ascending numeric order, each appearing once. -/
def locationIdsOf (due : List PendingForecast) : List ℤ :=
  List.insertionSort (fun a b => a ≤ b) (due.map (·.locationId)).dedup

/-- Running minimum of the reduce at processPastForecasts line 153. -/
def groupMinTime : List PendingForecast → ℤ
  | [] => 0
  | f :: fs =>
      (f :: fs).foldl
        (fun m g => if g.targetTime < m then g.targetTime else m) f.targetTime

/-- Running maximum of the reduce at processPastForecasts line 154. -/
def groupMaxTime : List PendingForecast → ℤ
  | [] => 0
  | f :: fs =>
      (f :: fs).foldl
        (fun m g => if g.targetTime > m then g.targetTime else m) f.targetTime

/-- getActualsForLocationAndTimeRange (part_014 lines 187-197): all actual
records of the location with time in [lo, hi], in store order (the unique
(locationId, time) index makes at most one record per time). -/
def rangeActuals (actuals : List ActualRecord) (lid lo hi : ℤ) :
    List ActualRecord :=
  actuals.filter (fun a =>
    a.locationId == lid && decide (lo ≤ a.time) && decide (a.time ≤ hi))

/-- Lookup in the `actualsMap` of processPastForecasts line 157: a
JavaScript Map built from a list keeps the last entry per key. -/
def mapGet (l : List ActualRecord) (t : ℤ) : Option ActualRecord :=
  (l.filter (fun a => a.time == t)).getLast?

/-- Per-location scoring loop of processPastForecasts lines 147-196: skip
the whole group when the location is not an accuracy location; otherwise
fetch the actuals for the group time range once and, for each due forecast
of the group, emit an update/history pair exactly when the lead time is at
least the warm-up threshold and a matching actual with a finite value for
the metric exists. -/
def scoreGroup (actuals : List ActualRecord) (group : List PendingForecast)
    (lid : ℤ) : List (Update × HistRecord) :=
  match ACCURACY_LOCATIONS.find? (fun l => l.1 == lid) with
  | none => []
  | some loc =>
      let minTime := groupMinTime group
      let maxTime := groupMaxTime group
      let ranged := rangeActuals actuals lid minTime maxTime
      group.filterMap (fun f =>
        if f.forecastLeadTimeHours < ACCURACY_FORECAST_START_HOUR then none
        else
          match mapGet ranged f.targetTime with
          | none => none
          | some a =>
              match finiteNum (getMetric a f.metricKey) with
              | none => none
              | some actualValue =>
                  some (⟨lid, loc.2, f.modelKey, f.metricKey,
                         |f.forecastedValue - actualValue|,
                         intervalFor f.forecastLeadTimeHours⟩,
                        ⟨lid, f.modelKey, f.metricKey, f.targetTime,
                         f.forecastLeadTimeHours, f.forecastedValue,
                         actualValue, |f.forecastedValue - actualValue|⟩))

/-- The whole list of (update, historical record) pairs one reconciliation
pass at time `now` builds over state `st`, grouped by location. -/
def reconPairs (now : ℤ) (st : ReconState) : List (Update × HistRecord) :=
  let due := duePending now st.pending
  (locationIdsOf due).flatMap (fun lid =>
    scoreGroup st.actuals (due.filter (fun f => f.locationId == lid)) lid)

/-- processPastForecasts (part_011 lines 126-202): fetch the due forecasts,
mark every one of them for deletion, score the ones with a matching finite
actual, and apply updates, deletions and history inserts in one
transaction. With no due forecasts the pass is a no-op. -/
def processPastForecasts (now : ℤ) (st : ReconState) : ReconState :=
  let due := duePending now st.pending
  if due.isEmpty then st
  else
    let idsToDelete := due.map (·.id)
    let pairs := reconPairs now st
    let updates := pairs.map (·.1)
    let historicalRecordsToAdd := pairs.map (·.2)
    if updates.length > 0 ∨ idsToDelete.length > 0 then
      applyAccuracyUpdatesAndDelete st updates idsToDelete historicalRecordsToAdd
    else st

/-! ## Lease manager (part_011 lines 204-232, part_014 lines 329-349) -/

/-- Lease row of the single-row leader_lease store. -/
structure Lease where
  id : String
  holderId : String
  timestamp : ℤ
  deriving DecidableEq, Repr

/-- Acquirability condition of acquireLease line 208:
no lease row, or the lease age strictly exceeds LEASE_DURATION, or the
candidate already holds it. -/
def leaseFree (lease : Option Lease) (now : ℤ) (me : String) : Bool :=
  match lease with
  | none => true
  | some l => decide (now - l.timestamp > LEASE_DURATION) || l.holderId == me

/-- acquireLease (part_011 lines 204-217) as a function of the stored lease
row read by getLease: on the acquirable condition write the candidate with
the current timestamp and report true, otherwise leave the row alone and
report false. -/
def acquireLease (store : Option Lease) (now : ℤ) (me : String) :
    Bool × Option Lease :=
  if leaseFree store now me then (true, some ⟨LEASE_ID, me, now⟩)
  else (false, store)

/-- Progress of one candidate through acquireLease, split at the await
boundary between the getLease read transaction and the setLease write
transaction. -/
inductive Phase where
  | start
  | readDone (snapshot : Option Lease)
  | done (result : Bool)
  deriving DecidableEq, Repr

/-- Two candidates racing on the shared lease row. -/
structure TwoProcState where
  store : Option Lease
  pa : Phase
  pb : Phase
  deriving DecidableEq, Repr

/-- One atomic storage transaction of a candidate: the first step is the
getLease read (snapshotting the row), the second step evaluates the
acquirable condition on the snapshot and either writes the row via setLease
returning true, or returns false. A finished candidate does nothing. -/
def stepProc (now : ℤ) (me : String) (store : Option Lease) :
    Phase → Phase × Option Lease
  | .start => (.readDone store, store)
  | .readDone snap =>
      if leaseFree snap now me then (.done true, some ⟨LEASE_ID, me, now⟩)
      else (.done false, store)
  | .done r => (.done r, store)

/-- Run a schedule over the two candidates: `true` steps candidate A,
`false` steps candidate B. Each list entry is one atomic storage
transaction of that candidate. -/
def runSchedule (now : ℤ) (idA idB : String) (sched : List Bool)
    (s : TwoProcState) : TwoProcState :=
  sched.foldl (fun st c =>
    if c then
      let (p, store) := stepProc now idA st.store st.pa
      { st with pa := p, store := store }
    else
      let (p, store) := stepProc now idB st.store st.pb
      { st with pb := p, store := store }) s

/-! ## Helper lemmas -/

lemma median_threshold_eq : MEDIAN_PRECIP_THRESHOLD = (0.05 : ℚ) := by
  norm_num [MEDIAN_PRECIP_THRESHOLD, Rat.mkRat_eq_div]

lemma insertionSort_eq_of_sorted_perm (l l2 : List ℚ) (hp : l2.Perm l)
    (hs : l2.Sorted (· ≤ ·)) :
    List.insertionSort (fun a b => a ≤ b) l = l2 := by
  refine List.eq_of_perm_of_sorted ?_ ?_ hs
  · exact (List.perm_insertionSort _ l).trans hp.symm
  · exact List.sorted_insertionSort _ l

lemma medianOf_perm (l l2 : List ℚ) (hp : l2.Perm l) :
    medianOf l2 = medianOf l := by
  unfold medianOf
  have h1 : List.insertionSort (fun a b => a ≤ b) l2 =
      List.insertionSort (fun a b => a ≤ b) l :=
    List.eq_of_perm_of_sorted
      ((List.perm_insertionSort _ l2).trans
        (hp.trans (List.perm_insertionSort _ l).symm))
      (List.sorted_insertionSort _ l2)
      (List.sorted_insertionSort _ l)
  rw [h1]

lemma maeStep_foldl_hours (es : List ℚ) : ∀ d : ScoreData,
    (es.foldl maeStep d).hoursTracked = d.hoursTracked + es.length := by
  induction es with
  | nil => intro d; simp
  | cons e t ih =>
      intro d
      rw [List.foldl_cons, ih]
      simp [maeStep]
      omega

lemma maeStep_foldl_total (es : List ℚ) : ∀ d : ScoreData,
    (es.foldl maeStep d).meanAbsoluteError *
      ((es.foldl maeStep d).hoursTracked : ℚ) =
    d.meanAbsoluteError * d.hoursTracked + es.sum := by
  induction es with
  | nil => intro d; simp
  | cons e t ih =>
      intro d
      rw [List.foldl_cons, ih]
      have hc1 : ((d.hoursTracked : ℚ) + 1) ≠ 0 := by positivity
      simp only [maeStep, List.sum_cons]
      push_cast
      rw [div_mul_cancel₀ _ hc1]
      ring

lemma maeStep_foldl_mae (es : List ℚ) (d : ScoreData)
    (h : 0 < d.hoursTracked + es.length) :
    (es.foldl maeStep d).meanAbsoluteError =
      (d.meanAbsoluteError * d.hoursTracked + es.sum) /
        ((d.hoursTracked : ℚ) + es.length) := by
  have htot := maeStep_foldl_total es d
  have hh := maeStep_foldl_hours es d
  rw [hh] at htot
  have hne : ((d.hoursTracked : ℚ) + es.length) ≠ 0 := by
    have : (0 : ℚ) < (d.hoursTracked : ℚ) + es.length := by
      exact_mod_cast h
    linarith
  rw [eq_div_iff hne]
  rw [← htot]
  push_cast
  ring

lemma maeStep_foldl_perm (es es2 : List ℚ) (d : ScoreData)
    (hp : es2.Perm es) : es2.foldl maeStep d = es.foldl maeStep d := by
  rcases es with _ | ⟨e, t⟩
  · rw [hp.eq_nil]
  · have hlen := hp.length_eq
    have hsum := hp.sum_eq
    have hpos : 0 < d.hoursTracked + (e :: t).length := by
      simp
    have hpos2 : 0 < d.hoursTracked + es2.length := by omega
    have h1 := maeStep_foldl_mae (e :: t) d hpos
    have h2 := maeStep_foldl_mae es2 d hpos2
    have hh1 := maeStep_foldl_hours (e :: t) d
    have hh2 := maeStep_foldl_hours es2 d
    cases hfold : es2.foldl maeStep d with
    | mk m2 c2 =>
        cases hfold2 : (e :: t).foldl maeStep d with
        | mk m1 c1 =>
            rw [hfold] at h2 hh2
            rw [hfold2] at h1 hh1
            simp only at h1 h2 hh1 hh2
            congr 1
            · rw [h1, h2, hsum, hlen]
            · omega

/-- C3. For every starting score state and every finite sequence of
non-negative errors applied one at a time through the incremental update
newMAE = (oldMAE * oldCount + error) / (oldCount + 1), the resulting
meanAbsoluteError equals the arithmetic mean of all oldCount + N errors
observed to date, starting from the zero state it equals the plain mean of
the sequence, and the whole resulting state is independent of the order in
which the errors are applied. -/
theorem mae_incremental_equals_batch_mean (d : ScoreData) (es es2 : List ℚ)
    (hnn : ∀ e ∈ es, 0 ≤ e) (hp : es2.Perm es) :
    (0 < d.hoursTracked + es.length →
      (es.foldl maeStep d).meanAbsoluteError =
        (d.meanAbsoluteError * d.hoursTracked + es.sum) /
          ((d.hoursTracked : ℚ) + es.length)) ∧
    (es.foldl maeStep d).hoursTracked = d.hoursTracked + es.length ∧
    (es.foldl maeStep ⟨0, 0⟩).meanAbsoluteError = es.sum / (es.length : ℚ) ∧
    es2.foldl maeStep d = es.foldl maeStep d := by
  refine ⟨fun h => maeStep_foldl_mae es d h, maeStep_foldl_hours es d, ?_,
    maeStep_foldl_perm es es2 d hp⟩
  rcases es with _ | ⟨e, t⟩
  · simp
  · have := maeStep_foldl_mae (e :: t) ⟨0, 0⟩ (by simp)
    rw [this]
    push_cast
    ring_nf

/-- Witness for C3 at a concrete instance: errors 1 and 2 applied to the
zero state in either order give MAE 3/2 over 2 tracked hours. -/
theorem mae_incremental_equals_batch_mean_witness :
    (∀ e ∈ ([1, 2] : List ℚ), 0 ≤ e) ∧ ([2, 1] : List ℚ).Perm [1, 2] ∧
    (([1, 2] : List ℚ).foldl maeStep ⟨0, 0⟩).meanAbsoluteError =
      ([1, 2] : List ℚ).sum / (([1, 2] : List ℚ).length : ℚ) ∧
    ([2, 1] : List ℚ).foldl maeStep ⟨0, 0⟩ =
      ([1, 2] : List ℚ).foldl maeStep ⟨0, 0⟩ := by
  have h := mae_incremental_equals_batch_mean ⟨0, 0⟩ [1, 2] [2, 1]
    (by decide) (by decide)
  exact ⟨by decide, by decide, h.2.2.1, h.2.2.2⟩

/-- Scenario input for the aggregator: three real models reporting
temperatures 2, 9 and 4 for the same hour. -/
def threeModelScenario : Forecasts :=
  [("gfs_global", [⟨0, [("temperature_2m", JsVal.num 2)]⟩]),
   ("icon_global", [⟨0, [("temperature_2m", JsVal.num 9)]⟩]),
   ("gem_global", [⟨0, [("temperature_2m", JsVal.num 4)]⟩])]

/-- C4. The aggregator's per-metric median equals the statistical median of
the contributing values: against any sorted rearrangement of the collected
values it picks the middle element on odd count and the average of the two
middle elements on even count, it is invariant under reordering of the
contributing values (hence deterministic on the multiset of inputs), three
temperatures 2, 4, 9 yield median 4, and the full aggregator run on the
three-model scenario emits 4 as the median-model temperature. -/
theorem aggregator_median_is_statistical_median (l l2 l3 : List ℚ)
    (hne : l ≠ []) (hp : l2.Perm l) (hs : l2.Sorted (· ≤ ·))
    (hp3 : l3.Perm l) :
    (medianOf l = if l2.length % 2 = 1 then l2.getD (l2.length / 2) 0
      else (l2.getD (l2.length / 2 - 1) 0 + l2.getD (l2.length / 2) 0) / 2) ∧
    medianOf l3 = medianOf l ∧
    medianOf [2, 4, 9] = 4 ∧
    (calculateDerivedModels threeModelScenario true).lookup "median_model" =
      some [⟨0, [("temperature_2m", JsVal.num 4),
                 ("precipitation_type", JsVal.num 0)]⟩] := by
  refine ⟨?_, medianOf_perm l l3 hp3, by decide, ?_⟩
  · unfold medianOf
    rw [insertionSort_eq_of_sorted_perm l l2 hp hs]
    rcases Nat.mod_two_eq_zero_or_one l2.length with h | h <;> simp [h]
  · decide

/-- Witness for C4 at the concrete contributing values 2, 4, 9 (sorted
rearrangement itself, reordering 9, 4, 2). -/
theorem aggregator_median_is_statistical_median_witness :
    ([2, 4, 9] : List ℚ) ≠ [] ∧
    ([2, 4, 9] : List ℚ).Perm [2, 4, 9] ∧
    ([2, 4, 9] : List ℚ).Sorted (· ≤ ·) ∧
    ([9, 4, 2] : List ℚ).Perm [2, 4, 9] ∧
    (medianOf [2, 4, 9] =
      if ([2, 4, 9] : List ℚ).length % 2 = 1 then
        ([2, 4, 9] : List ℚ).getD (([2, 4, 9] : List ℚ).length / 2) 0
      else (([2, 4, 9] : List ℚ).getD (([2, 4, 9] : List ℚ).length / 2 - 1) 0 +
            ([2, 4, 9] : List ℚ).getD (([2, 4, 9] : List ℚ).length / 2) 0) / 2) ∧
    medianOf [9, 4, 2] = medianOf [2, 4, 9] := by
  have h := aggregator_median_is_statistical_median [2, 4, 9] [2, 4, 9] [9, 4, 2]
    (by decide) (by decide) (by decide) (by decide)
  exact ⟨by decide, by decide, by decide, by decide, h.1, h.2.1⟩

/-- C5. Both per-hour precipitation-type classifications map rain/snow
amounts into codes 0 = none, 1 = rain, 2 = mixed, 3 = snow using presence
thresholds on each input (strictly positive for the per-model hourly
classification, above 0.05 for the median reclassification), mixed arises
exactly when both inputs clear their threshold, and the four concrete
cases of the claim hold for both classifiers. -/
theorem precipitation_type_classification (r s : Option ℚ) (rm sm : ℚ) :
    (classifyHourly r s = 2 ↔ truthyPos r = true ∧ truthyPos s = true) ∧
    (truthyPos r = true ↔ ∃ q, r = some q ∧ 0 < q) ∧
    (classifyMedian rm sm = 2 ↔ 0.05 < rm ∧ 0.05 < sm) ∧
    classifyHourly (some 0.06) (some 0) = 1 ∧
    classifyHourly (some 0) (some 0.2) = 3 ∧
    classifyHourly (some 0.1) (some 0.1) = 2 ∧
    classifyHourly (some 0) (some 0) = 0 ∧
    classifyMedian 0.06 0 = 1 ∧
    classifyMedian 0 0.2 = 3 ∧
    classifyMedian 0.1 0.1 = 2 ∧
    classifyMedian 0 0 = 0 ∧
    classifyHourly r s ∈ ([0, 1, 2, 3] : List ℤ) ∧
    classifyMedian rm sm ∈ ([0, 1, 2, 3] : List ℤ) := by
  refine ⟨?_, ?_, ?_, by norm_num [classifyHourly, truthyPos],
    by norm_num [classifyHourly, truthyPos],
    by norm_num [classifyHourly, truthyPos],
    by norm_num [classifyHourly, truthyPos],
    by norm_num [classifyMedian, median_threshold_eq],
    by norm_num [classifyMedian, median_threshold_eq],
    by norm_num [classifyMedian, median_threshold_eq],
    by norm_num [classifyMedian, median_threshold_eq], ?_, ?_⟩
  · cases hr : truthyPos r <;> cases hs2 : truthyPos s <;>
      simp [classifyHourly, hr, hs2]
  · cases r with
    | none => simp [truthyPos]
    | some q => simp [truthyPos]
  · by_cases h1 : (0.05 : ℚ) < rm <;> by_cases h2 : (0.05 : ℚ) < sm <;>
      simp [classifyMedian, median_threshold_eq, h1, h2]
  · cases hr : truthyPos r <;> cases hs2 : truthyPos s <;>
      simp [classifyHourly, hr, hs2]
  · by_cases h1 : (0.05 : ℚ) < rm <;> by_cases h2 : (0.05 : ℚ) < sm <;>
      simp [classifyMedian, median_threshold_eq, h1, h2]

lemma setKey_lookup {α : Type} (l : List (String × α)) (k : String) (v : α) :
    (setKey l k v).lookup k = some v := by
  induction l with
  | nil => simp [setKey, List.lookup]
  | cons p rest ih =>
      by_cases h : p.1 == k
      · have : p.1 = k := by simpa using h
        subst this
        simp [setKey, List.lookup]
      · cases p with
        | mk k2 w =>
            simp only at h
            have hk : (k == k2) = false := by
              rw [beq_eq_false_iff_ne]
              intro hkk
              exact absurd (by simp [hkk] : (k2 == k) = true) (by simpa using h)
            simp [setKey, h, List.lookup, hk, ih]

lemma mapTime_filterMap (fc : Forecasts) (keys : List String) (hv : Bool)
    (ts : List ℤ) :
    (ts.filterMap (mkMedianPoint fc keys hv)).map (·.time) =
      ts.filter (fun t => !(collectValues fc keys t).isEmpty) := by
  induction ts with
  | nil => simp
  | cons t ts ih =>
      by_cases h : (collectValues fc keys t).isEmpty
      · simp [mkMedianPoint, h, ih]
      · simp [mkMedianPoint, h, ih]

/-- Property the spec states for the median coverage, written from the
spec words for comparison with the code: the timestamp appears in at least
one real (non-derived) model's series, and at least one finite metric
value contributes to it across the real models. -/
def specUnionCovered (fc : Forecasts) (t : ℤ) : Bool :=
  (realModelKeys fc).any (fun k =>
    ((fc.lookup k).getD []).any (fun h => h.time == t)) &&
  !(collectValues fc (realModelKeys fc) t).isEmpty

/-- Counterexample input for C2: the second real model has an hour the
first one lacks. -/
def twoModelScenario : Forecasts :=
  [("gfs_global", [⟨0, [("temperature_2m", JsVal.num 1)]⟩]),
   ("icon_global", [⟨3600000, [("temperature_2m", JsVal.num 3)]⟩])]

/-- Counterexample for C2: timestamp 3600000 appears in a real model's
series with a finite temperature, yet the median series, which iterates
only the first real model's timestamps, does not contain it. -/
theorem median_misses_union_timestamp :
    specUnionCovered twoModelScenario 3600000 = true ∧
    (calculateDerivedModels twoModelScenario true).lookup "median_model" =
      some [⟨0, [("temperature_2m", JsVal.num 1),
                 ("precipitation_type", JsVal.num 0)]⟩] ∧
    (((calculateDerivedModels twoModelScenario true).lookup
        "median_model").getD []).all (fun p => p.time != 3600000) = true := by
  refine ⟨by decide, by decide, by decide⟩

/-- C2 amended. The synthetic median series does not cover the union
of all real models' timestamps: it contains exactly the timestamps of the
first listed real model's series that have at least one contributing
finite metric value across the real models. -/
theorem median_covers_first_model_times (fc : Forecasts) (hv : Bool)
    (k : String) (keys : List String)
    (hreal : realModelKeys fc = k :: keys) :
    ∃ series, (calculateDerivedModels fc hv).lookup "median_model" =
        some series ∧
      series.map (·.time) =
        (((fc.lookup k).getD []).map (·.time)).filter
          (fun t => !(collectValues fc (k :: keys) t).isEmpty) := by
  refine ⟨calcMedianHourly fc (k :: keys) hv, ?_, ?_⟩
  · unfold calculateDerivedModels
    rw [hreal]
    exact setKey_lookup fc "median_model" (calcMedianHourly fc (k :: keys) hv)
  · rw [calcMedianHourly, referenceTimes]
    exact mapTime_filterMap fc (k :: keys) hv _

/-- Witness for the amended C2 theorem at the two-model scenario. -/
theorem median_covers_first_model_times_witness :
    realModelKeys twoModelScenario = ["gfs_global", "icon_global"] ∧
    ∃ series,
      (calculateDerivedModels twoModelScenario true).lookup "median_model" =
        some series ∧
      series.map (·.time) =
        (((twoModelScenario.lookup "gfs_global").getD []).map (·.time)).filter
          (fun t =>
            !(collectValues twoModelScenario ["gfs_global", "icon_global"]
                t).isEmpty) :=
  ⟨by decide, median_covers_first_model_times twoModelScenario true
    "gfs_global" ["icon_global"] (by decide)⟩

/-- Matching actual value for a forecast, independent of the grouping and
range optimisation of the reconciliation pass: last stored actual record of
the location at exactly the target time, read at the metric key, accepted
only when finite. -/
def lookupActualValue (actuals : List ActualRecord) (lid t : ℤ)
    (mk : String) : Option ℚ :=
  (mapGet (actuals.filter (fun a => a.locationId == lid)) t).bind
    (fun a => finiteNum (getMetric a mk))

lemma foldl_tmin_le (l : List PendingForecast) : ∀ init : ℤ,
    l.foldl (fun m g => if g.targetTime < m then g.targetTime else m) init ≤
      init := by
  induction l with
  | nil => intro init; simp
  | cons g t ih =>
      intro init
      rw [List.foldl_cons]
      refine le_trans (ih _) ?_
      split <;> omega

lemma foldl_tmin_le_mem (l : List PendingForecast) : ∀ init : ℤ, ∀ f ∈ l,
    l.foldl (fun m g => if g.targetTime < m then g.targetTime else m) init ≤
      f.targetTime := by
  induction l with
  | nil => intro init f hf; exact absurd hf (List.not_mem_nil f)
  | cons g t ih =>
      intro init f hf
      rw [List.foldl_cons]
      rcases List.mem_cons.mp hf with h | h
      · subst h
        refine le_trans (foldl_tmin_le t _) ?_
        split <;> omega
      · exact ih _ f h

lemma foldl_tmax_ge (l : List PendingForecast) : ∀ init : ℤ,
    init ≤
      l.foldl (fun m g => if g.targetTime > m then g.targetTime else m)
        init := by
  induction l with
  | nil => intro init; simp
  | cons g t ih =>
      intro init
      rw [List.foldl_cons]
      refine le_trans ?_ (ih _)
      split <;> omega

lemma foldl_tmax_ge_mem (l : List PendingForecast) : ∀ init : ℤ, ∀ f ∈ l,
    f.targetTime ≤
      l.foldl (fun m g => if g.targetTime > m then g.targetTime else m)
        init := by
  induction l with
  | nil => intro init f hf; exact absurd hf (List.not_mem_nil f)
  | cons g t ih =>
      intro init f hf
      rw [List.foldl_cons]
      rcases List.mem_cons.mp hf with h | h
      · subst h
        refine le_trans ?_ (foldl_tmax_ge t _)
        split <;> omega
      · exact ih _ f h

lemma groupMinTime_le_mem {g : List PendingForecast} {f : PendingForecast}
    (hf : f ∈ g) : groupMinTime g ≤ f.targetTime := by
  cases g with
  | nil => exact absurd hf (List.not_mem_nil f)
  | cons g0 gs => exact foldl_tmin_le_mem (g0 :: gs) g0.targetTime f hf

lemma groupMaxTime_ge_mem {g : List PendingForecast} {f : PendingForecast}
    (hf : f ∈ g) : f.targetTime ≤ groupMaxTime g := by
  cases g with
  | nil => exact absurd hf (List.not_mem_nil f)
  | cons g0 gs => exact foldl_tmax_ge_mem (g0 :: gs) g0.targetTime f hf

lemma mapGet_range_eq (actuals : List ActualRecord) (lid lo hi t : ℤ)
    (h1 : lo ≤ t) (h2 : t ≤ hi) :
    mapGet (rangeActuals actuals lid lo hi) t =
      mapGet (actuals.filter (fun a => a.locationId == lid)) t := by
  unfold mapGet rangeActuals
  congr 1
  rw [List.filter_filter, List.filter_filter]
  refine List.filter_congr ?_
  intro a _
  by_cases ht : a.time = t
  · simp [ht, h1, h2]
  · have hf : (a.time == t) = false := beq_eq_false_iff_ne.mpr ht
    simp [hf]

lemma scoreGroup_mem {actuals : List ActualRecord}
    {group : List PendingForecast} {lid : ℤ} {pair : Update × HistRecord}
    (h : pair ∈ scoreGroup actuals group lid) :
    ∃ f ∈ group, ∃ v : ℚ,
      ACCURACY_FORECAST_START_HOUR ≤ f.forecastLeadTimeHours ∧
      lookupActualValue actuals lid f.targetTime f.metricKey = some v ∧
      pair.1.locationId = lid ∧
      pair.1.modelKey = f.modelKey ∧
      pair.1.metricKey = f.metricKey ∧
      pair.1.interval = intervalFor f.forecastLeadTimeHours ∧
      pair.1.error = |f.forecastedValue - v| ∧
      pair.2 = ⟨lid, f.modelKey, f.metricKey, f.targetTime,
                f.forecastLeadTimeHours, f.forecastedValue, v,
                |f.forecastedValue - v|⟩ := by
  unfold scoreGroup at h
  cases hfind : ACCURACY_LOCATIONS.find? (fun l => l.1 == lid) with
  | none => rw [hfind] at h; exact absurd h (List.not_mem_nil pair)
  | some loc =>
      rw [hfind] at h
      obtain ⟨f, hf, hphi⟩ := List.mem_filterMap.mp h
      by_cases hlead : f.forecastLeadTimeHours < ACCURACY_FORECAST_START_HOUR
      · rw [if_pos hlead] at hphi
        exact absurd hphi (by simp)
      · rw [if_neg hlead] at hphi
        have hrange :
            mapGet (rangeActuals actuals lid (groupMinTime group)
              (groupMaxTime group)) f.targetTime =
            mapGet (actuals.filter (fun a => a.locationId == lid))
              f.targetTime :=
          mapGet_range_eq actuals lid _ _ _ (groupMinTime_le_mem hf)
            (groupMaxTime_ge_mem hf)
        rw [hrange] at hphi
        split at hphi
        · exact absurd hphi (by simp)
        · rename_i a hm
          split at hphi
          · exact absurd hphi (by simp)
          · rename_i v hv
            simp only [Option.some.injEq] at hphi
            subst hphi
            refine ⟨f, hf, v, by omega, ?_, rfl, rfl, rfl, rfl, rfl, rfl⟩
            simp [lookupActualValue, hm, hv]

lemma scoreGroup_nil {actuals : List ActualRecord}
    {group : List PendingForecast} {lid : ℤ}
    (hnone : ∀ f ∈ group,
      lookupActualValue actuals lid f.targetTime f.metricKey = none) :
    scoreGroup actuals group lid = [] := by
  unfold scoreGroup
  cases hfind : ACCURACY_LOCATIONS.find? (fun l => l.1 == lid) with
  | none => rfl
  | some loc =>
      rw [List.filterMap_eq_nil_iff]
      intro f hf
      by_cases hlead : f.forecastLeadTimeHours < ACCURACY_FORECAST_START_HOUR
      · rw [if_pos hlead]
      · rw [if_neg hlead]
        have hrange :
            mapGet (rangeActuals actuals lid (groupMinTime group)
              (groupMaxTime group)) f.targetTime =
            mapGet (actuals.filter (fun a => a.locationId == lid))
              f.targetTime :=
          mapGet_range_eq actuals lid _ _ _ (groupMinTime_le_mem hf)
            (groupMaxTime_ge_mem hf)
        rw [hrange]
        have hn := hnone f hf
        unfold lookupActualValue at hn
        cases hm : mapGet (actuals.filter (fun a => a.locationId == lid))
            f.targetTime with
        | none => simp
        | some a =>
            rw [hm] at hn
            simp only [Option.some_bind] at hn
            simp [hn]

lemma reconPairs_mem {now : ℤ} {st : ReconState} {pair : Update × HistRecord}
    (h : pair ∈ reconPairs now st) :
    ∃ f ∈ duePending now st.pending, ∃ v : ℚ,
      ACCURACY_FORECAST_START_HOUR ≤ f.forecastLeadTimeHours ∧
      lookupActualValue st.actuals f.locationId f.targetTime f.metricKey =
        some v ∧
      pair.1.locationId = f.locationId ∧
      pair.1.modelKey = f.modelKey ∧
      pair.1.metricKey = f.metricKey ∧
      pair.1.interval = intervalFor f.forecastLeadTimeHours ∧
      pair.1.error = |f.forecastedValue - v| ∧
      pair.2 = ⟨f.locationId, f.modelKey, f.metricKey, f.targetTime,
                f.forecastLeadTimeHours, f.forecastedValue, v,
                |f.forecastedValue - v|⟩ := by
  unfold reconPairs at h
  obtain ⟨lid, _hlid, hp⟩ := List.mem_flatMap.mp h
  obtain ⟨f, hf, v, h1, h2, h3, h4, h5, h6, h7, h8⟩ := scoreGroup_mem hp
  obtain ⟨hfd, hfl⟩ := List.mem_filter.mp hf
  have hfl2 : f.locationId = lid := by simpa using hfl
  subst hfl2
  exact ⟨f, hfd, v, h1, h2, h3, h4, h5, h6, h7, h8⟩

lemma reconPairs_nil {now : ℤ} {st : ReconState}
    (hnone : ∀ f ∈ duePending now st.pending,
      lookupActualValue st.actuals f.locationId f.targetTime f.metricKey =
        none) :
    reconPairs now st = [] := by
  unfold reconPairs
  rw [List.flatMap_eq_nil_iff]
  intro lid _hlid
  refine scoreGroup_nil ?_
  intro f hf
  obtain ⟨hfd, hfl⟩ := List.mem_filter.mp hf
  have hfl2 : f.locationId = lid := by simpa using hfl
  rw [← hfl2]
  exact hnone f hfd

lemma processPast_of_due_empty {now : ℤ} {st : ReconState}
    (h : duePending now st.pending = []) :
    processPastForecasts now st = st := by
  unfold processPastForecasts
  simp [h]

lemma processPast_of_due_nonempty {now : ℤ} {st : ReconState}
    (h : duePending now st.pending ≠ []) :
    processPastForecasts now st =
      applyAccuracyUpdatesAndDelete st ((reconPairs now st).map (·.1))
        ((duePending now st.pending).map (·.id))
        ((reconPairs now st).map (·.2)) := by
  unfold processPastForecasts
  have h1 : (duePending now st.pending).isEmpty = false := by
    simpa [List.isEmpty_iff] using h
  have h2 : 0 < ((duePending now st.pending).map (·.id)).length := by
    rw [List.length_map]
    exact List.length_pos.mpr h
  simp only [h1, Bool.false_eq_true, if_false]
  rw [if_pos (Or.inr h2)]

lemma processPast_pending (now : ℤ) (st : ReconState)
    (hids : (st.pending.map (·.id)).Nodup) :
    (processPastForecasts now st).pending =
      st.pending.filter
        (fun f => !(decide (f.targetTime ≤ now - 3600 * 1000))) := by
  by_cases hdue : duePending now st.pending = []
  · rw [processPast_of_due_empty hdue]
    symm
    rw [List.filter_eq_self]
    intro f hf
    by_cases hp : f.targetTime ≤ now - 3600 * 1000
    · exfalso
      have hfd : f ∈ duePending now st.pending :=
        List.mem_filter.mpr ⟨hf, by simpa using hp⟩
      rw [hdue] at hfd
      exact absurd hfd (List.not_mem_nil f)
    · rw [decide_eq_false hp]
      rfl
  · rw [processPast_of_due_nonempty hdue]
    unfold applyAccuracyUpdatesAndDelete
    refine List.filter_congr ?_
    intro f hf
    congr 1
    by_cases hp : f.targetTime ≤ now - 3600 * 1000
    · have hfd : f ∈ duePending now st.pending :=
        List.mem_filter.mpr ⟨hf, by simpa using hp⟩
      have hmem : f.id ∈ (duePending now st.pending).map (·.id) :=
        List.mem_map_of_mem _ hfd
      rw [decide_eq_true hp]
      simpa [List.elem_iff] using hmem
    · have hnmem : f.id ∉ (duePending now st.pending).map (·.id) := by
        intro hmem
        obtain ⟨g, hg, hgid⟩ := List.mem_map.mp hmem
        have hgp : g ∈ st.pending := (List.mem_filter.mp hg).1
        have : g = f := List.inj_on_of_nodup_map hids hgp hf hgid
        subst this
        exact hp (by simpa using (List.mem_filter.mp hg).2)
      rw [decide_eq_false hp]
      simpa [List.elem_iff] using hnmem

/-- Concrete counterexample state for C1: one pending forecast, due at the
pass time, with no actual weather stored at all. -/
def unmatchedDueState : ReconState :=
  { pending := [⟨1, 1, "gfs_global", "temperature_2m", 0, 5, 24⟩],
    actuals := [], scores := [], history := [] }

/-- Counterexample for C1: the due forecast of `unmatchedDueState` has no
matching actual, yet the reconciliation pass deletes it from the pending
store (the claim said it is left in the pending store unchanged). It
produces no historical record and no score update. -/
theorem unmatched_due_forecast_is_deleted :
    duePending 7200000 unmatchedDueState.pending =
      unmatchedDueState.pending ∧
    lookupActualValue unmatchedDueState.actuals 1 0 "temperature_2m" =
      none ∧
    (processPastForecasts 7200000 unmatchedDueState).pending = [] ∧
    (processPastForecasts 7200000 unmatchedDueState).history = [] ∧
    (processPastForecasts 7200000 unmatchedDueState).scores = [] := by
  refine ⟨by decide, by decide, by decide, by decide, by decide⟩

lemma reconPairs_of_due_nil {now : ℤ} {st : ReconState}
    (h : duePending now st.pending = []) : reconPairs now st = [] := by
  simp [reconPairs, h, locationIdsOf]

/-- C1 amended. A reconciliation pass deletes every due pending forecast,
matched or not: the resulting pending store is exactly the not-yet-due
rows. A due forecast with no matching finite actual still produces no
historical record and no score update, even in a pass that also scores
matched forecasts: every appended historical record originates from a due
forecast with a matching finite actual, the resulting scores table is
exactly the old table folded over the emitted updates, every one of which
originates from a due forecast with a matching finite actual, and when no
due forecast has a matching finite actual the scores and history are left
unchanged (while the due rows are still deleted). -/
theorem due_forecasts_all_retired (now : ℤ) (st : ReconState)
    (hids : (st.pending.map (·.id)).Nodup) :
    ((processPastForecasts now st).pending =
      st.pending.filter
        (fun f => !(decide (f.targetTime ≤ now - 3600 * 1000)))) ∧
    (∀ rec ∈ (processPastForecasts now st).history,
      rec ∈ st.history ∨
      ∃ f ∈ duePending now st.pending, ∃ v : ℚ,
        ACCURACY_FORECAST_START_HOUR ≤ f.forecastLeadTimeHours ∧
        lookupActualValue st.actuals f.locationId f.targetTime f.metricKey =
          some v ∧
        rec = ⟨f.locationId, f.modelKey, f.metricKey, f.targetTime,
               f.forecastLeadTimeHours, f.forecastedValue, v,
               |f.forecastedValue - v|⟩) ∧
    ((processPastForecasts now st).scores =
      applyUpdatesFold st.scores ((reconPairs now st).map (·.1))) ∧
    (∀ u ∈ (reconPairs now st).map (·.1),
      ∃ f ∈ duePending now st.pending, ∃ v : ℚ,
        ACCURACY_FORECAST_START_HOUR ≤ f.forecastLeadTimeHours ∧
        lookupActualValue st.actuals f.locationId f.targetTime f.metricKey =
          some v ∧
        u.locationId = f.locationId ∧
        u.modelKey = f.modelKey ∧
        u.metricKey = f.metricKey ∧
        u.interval = intervalFor f.forecastLeadTimeHours ∧
        u.error = |f.forecastedValue - v|) ∧
    ((∀ f ∈ duePending now st.pending,
        lookupActualValue st.actuals f.locationId f.targetTime f.metricKey =
          none) →
      (processPastForecasts now st).scores = st.scores ∧
      (processPastForecasts now st).history = st.history) := by
  refine ⟨processPast_pending now st hids, ?_, ?_, ?_, ?_⟩
  · intro rec hrec
    by_cases hdue : duePending now st.pending = []
    · rw [processPast_of_due_empty hdue] at hrec
      exact Or.inl hrec
    · rw [processPast_of_due_nonempty hdue] at hrec
      unfold applyAccuracyUpdatesAndDelete at hrec
      simp only at hrec
      rcases List.mem_append.mp hrec with hold | hnew
      · exact Or.inl hold
      · right
        obtain ⟨pair, hpair, hrec2⟩ := List.mem_map.mp hnew
        obtain ⟨f, hf, v, h1, h2, _h3, _h4, _h5, _h6, _h7, h8⟩ :=
          reconPairs_mem hpair
        exact ⟨f, hf, v, h1, h2, by rw [← hrec2, h8]⟩
  · by_cases hdue : duePending now st.pending = []
    · rw [processPast_of_due_empty hdue, reconPairs_of_due_nil hdue]
      simp [applyUpdatesFold]
    · rw [processPast_of_due_nonempty hdue]
      rfl
  · intro u hu
    obtain ⟨pair, hpair, hup⟩ := List.mem_map.mp hu
    obtain ⟨f, hf, v, h1, h2, h3, h4, h5, h6, h7, _h8⟩ :=
      reconPairs_mem hpair
    subst hup
    exact ⟨f, hf, v, h1, h2, h3, h4, h5, h6, h7⟩
  · intro hnone
    by_cases hdue : duePending now st.pending = []
    · rw [processPast_of_due_empty hdue]
      exact ⟨rfl, rfl⟩
    · rw [processPast_of_due_nonempty hdue]
      unfold applyAccuracyUpdatesAndDelete
      rw [reconPairs_nil hnone]
      simp [applyUpdatesFold]

/-- Witness for the amended C1 theorem at the concrete unmatched-due
state. -/
theorem due_forecasts_all_retired_witness :
    (unmatchedDueState.pending.map (·.id)).Nodup ∧
    (processPastForecasts 7200000 unmatchedDueState).pending =
      unmatchedDueState.pending.filter
        (fun f => !(decide (f.targetTime ≤ 7200000 - 3600 * 1000))) ∧
    (processPastForecasts 7200000 unmatchedDueState).scores =
      applyUpdatesFold unmatchedDueState.scores
        ((reconPairs 7200000 unmatchedDueState).map (·.1)) :=
  ⟨by decide,
   (due_forecasts_all_retired 7200000 unmatchedDueState (by decide)).1,
   (due_forecasts_all_retired 7200000 unmatchedDueState (by decide)).2.2.1⟩

lemma lookup_mem {α : Type} (l : List (String × α)) (k : String) (v : α)
    (h : l.lookup k = some v) : (k, v) ∈ l := by
  induction l with
  | nil => simp [List.lookup] at h
  | cons p rest ih =>
      cases p with
      | mk k2 w =>
          by_cases hk : k == k2
          · have hk2 : k = k2 := by simpa using hk
            rw [List.lookup, hk] at h
            simp only [Option.some.injEq] at h
            subst hk2
            subst h
            exact List.mem_cons_self _ _
          · rw [List.lookup] at h
            rw [Bool.eq_false_iff.mpr hk] at h
            exact List.mem_cons_of_mem _ (ih h)

lemma getD_eq_some_mem {l : List JsVal} {i : ℕ} {q : ℚ}
    (h : l.getD i JsVal.undef = JsVal.num q) : JsVal.num q ∈ l := by
  rw [List.getD] at h
  cases hg : l.get? i with
  | none => rw [hg] at h; simp at h
  | some a =>
      rw [hg] at h
      simp only [Option.getD_some] at h
      subst h
      exact List.get?_mem hg

/-- Shared characterization of every forecast point the storage step emits:
its lead time clears the warm-up threshold, its target hour is within the
maximum horizon past the fetch time, and its value is one of the finite
numeric cells of the raw results. -/
lemma storeFutureForecasts_mem {now locId : ℤ} {rs : List RawResult}
    {f : NewPendingForecast} (h : f ∈ storeFutureForecasts now locId rs) :
    ACCURACY_FORECAST_START_HOUR ≤ f.forecastLeadTimeHours ∧
    f.targetTime ≤ now + ACCURACY_MAX_FORECAST_HOURS * 3600 * 1000 ∧
    f.forecastedValue ∈ finiteCells rs := by
  unfold storeFutureForecasts at h
  obtain ⟨r, hr, hfr⟩ := List.mem_flatMap.mp h
  unfold forecastsFromResult at hfr
  obtain ⟨i, _hi, hbody⟩ := List.mem_flatMap.mp hfr
  by_cases hb : r.hourly.time.getD i 0 >
      now + ACCURACY_MAX_FORECAST_HOURS * 3600 * 1000
  · rw [if_pos hb] at hbody
    exact absurd hbody (List.not_mem_nil f)
  · rw [if_neg hb] at hbody
    by_cases hl : jsRound (((r.hourly.time.getD i 0 -
        r.generationtime_ms : ℤ) : ℚ) / 3600000) <
        ACCURACY_FORECAST_START_HOUR
    · rw [if_pos hl] at hbody
      exact absurd hbody (List.not_mem_nil f)
    · rw [if_neg hl] at hbody
      obtain ⟨mk, _hmk, hsome⟩ := List.mem_filterMap.mp hbody
      split at hsome
      · exact absurd hsome (by simp)
      · rename_i col hcol
        split at hsome
        · rename_i q hq
          simp only [Option.some.injEq] at hsome
          subst hsome
          refine ⟨by simpa using hl, by simpa using hb, ?_⟩
          unfold finiteCells
          rw [List.mem_flatMap]
          refine ⟨r, hr, ?_⟩
          rw [List.mem_flatMap]
          refine ⟨(mk, col), lookup_mem _ _ _ hcol, ?_⟩
          rw [List.mem_filterMap]
          exact ⟨JsVal.num q, getD_eq_some_mem hq, rfl⟩
        · exact absurd hsome (by simp)

/-- Scenario state for C6: one due pending forecast with lead time
30 hours, forecast value 5, and a stored matching actual of 7/2, so the
absolute error is 1.5. -/
def leadThirtyState : ReconState :=
  { pending := [⟨1, 1, "gfs_global", "temperature_2m", 0, 5, 30⟩],
    actuals := [⟨1, 0, [("temperature_2m", JsVal.num (7 / 2))]⟩],
    scores := [], history := [] }

lemma leadThirty_pairs :
    reconPairs 7200000 leadThirtyState =
      [(⟨1, "37 Jubilation", "gfs_global", "temperature_2m", 3 / 2, .h48⟩,
        ⟨1, "gfs_global", "temperature_2m", 0, 30, 5, 7 / 2, 3 / 2⟩)] := by
  have habs : |(5 : ℚ) - 7 / 2| = 3 / 2 := by
    rw [abs_of_nonneg (by norm_num)]
    norm_num
  simp +decide [reconPairs, duePending, leadThirtyState, locationIdsOf,
    scoreGroup, rangeActuals, mapGet, groupMinTime, groupMaxTime, getMetric,
    finiteNum, intervalFor, ACCURACY_LOCATIONS, ACCURACY_FORECAST_START_HOUR,
    List.insertionSort, List.orderedInsert, List.lookup, habs]

lemma leadThirty_scores :
    (processPastForecasts 7200000 leadThirtyState).scores =
      [⟨1, "37 Jubilation", "gfs_global", "GFS 11km",
        [("temperature_2m", ⟨⟨0, 0⟩, ⟨3 / 2, 1⟩, ⟨0, 0⟩⟩)]⟩] := by
  rw [processPast_of_due_nonempty (by decide), leadThirty_pairs]
  simp +decide [applyAccuracyUpdatesAndDelete, applyUpdatesFold,
    getScoreEntry, putScoreEntry, bumpScore, bumpMetric, maeStep,
    zeroMetricScores, setKey, MODELS, List.lookup]

/-- C6. Lead-time bucketing at scoring time: lead times of at most 24 hours
land in the 24h bucket, lead times in (24, 48] in the 48h bucket and longer
ones in the 5d bucket; a lead time of 30 hours gives the 48h bucket and, in
the concrete scenario with absolute error 1.5, updates only that bucket's
MAE and tracked hours. Every update emitted by a reconciliation pass stems
from a due forecast with lead time at least the warm-up threshold and
carries that forecast's bucket, and the forecast-storage step never stores
a forecast with lead time below the threshold. -/
theorem lead_time_bucketing (l : ℤ) (now : ℤ) (st : ReconState) (u : Update)
    (locId : ℤ) (rs : List RawResult) (f : NewPendingForecast) :
    ((l ≤ 24 → intervalFor l = .h24) ∧
     (24 < l → l ≤ 48 → intervalFor l = .h48) ∧
     (48 < l → intervalFor l = .d5)) ∧
    intervalFor 30 = .h48 ∧
    (u ∈ (reconPairs now st).map (·.1) →
      ∃ g ∈ duePending now st.pending,
        ACCURACY_FORECAST_START_HOUR ≤ g.forecastLeadTimeHours ∧
        u.interval = intervalFor g.forecastLeadTimeHours) ∧
    (f ∈ storeFutureForecasts now locId rs →
      ACCURACY_FORECAST_START_HOUR ≤ f.forecastLeadTimeHours) ∧
    (processPastForecasts 7200000 leadThirtyState).scores =
      [⟨1, "37 Jubilation", "gfs_global", "GFS 11km",
        [("temperature_2m", ⟨⟨0, 0⟩, ⟨3 / 2, 1⟩, ⟨0, 0⟩⟩)]⟩] := by
  refine ⟨⟨?_, ?_, ?_⟩, by decide, ?_, ?_, leadThirty_scores⟩
  · intro h; simp [intervalFor, h]
  · intro h1 h2; simp [intervalFor, h2]; omega
  · intro h
    have h1 : ¬(l ≤ 24) := by omega
    have h2 : ¬(l ≤ 48) := by omega
    simp [intervalFor, h1, h2]
  · intro hu
    obtain ⟨pair, hpair, hup⟩ := List.mem_map.mp hu
    obtain ⟨g, hg, v, h1, _h2, _h3, _h4, _h5, h6, _h7, _h8⟩ :=
      reconPairs_mem hpair
    exact ⟨g, hg, h1, by rw [← hup, h6]⟩
  · intro hf
    exact (storeFutureForecasts_mem hf).1

/-- Example raw model run for the storage step: one hour, a finite
temperature cell and a non-finite rain cell. -/
def rawRunExample : RawResult :=
  ⟨"gfs_global", 0, ⟨[3600000],
    [("temperature_2m", [JsVal.num 5]), ("rain", [JsVal.nanv])]⟩⟩

lemma storeExample_eq :
    storeFutureForecasts 7200000 1 [rawRunExample] =
      [⟨1, "gfs_global", "temperature_2m", 3600000, 5, 1⟩] := by
  norm_num [storeFutureForecasts, forecastsFromResult, rawRunExample,
    TRACKABLE_METRICS, METRICS, jsRound, ACCURACY_MAX_FORECAST_HOURS,
    ACCURACY_FORECAST_START_HOUR, List.lookup, List.range_succ, finiteNum]
  decide

/-- Witness for C6: the bucket boundaries at lead times 10, 30 and 100, the
scenario update for the lead-30 forecast, and the storage-step lower bound
at a concrete stored forecast. -/
theorem lead_time_bucketing_witness :
    ((10 : ℤ) ≤ 24 ∧ intervalFor 10 = .h24) ∧
    (24 < (30 : ℤ) ∧ (30 : ℤ) ≤ 48 ∧ intervalFor 30 = .h48) ∧
    (48 < (100 : ℤ) ∧ intervalFor 100 = .d5) ∧
    (∃ g ∈ duePending 7200000 leadThirtyState.pending,
      ACCURACY_FORECAST_START_HOUR ≤ g.forecastLeadTimeHours ∧
      (⟨1, "37 Jubilation", "gfs_global", "temperature_2m", 3 / 2,
        AccuracyInterval.h48⟩ : Update).interval =
        intervalFor g.forecastLeadTimeHours) ∧
    ACCURACY_FORECAST_START_HOUR ≤
      (⟨1, "gfs_global", "temperature_2m", 3600000, 5, 1⟩ :
        NewPendingForecast).forecastLeadTimeHours := by
  have h10 := lead_time_bucketing 10 7200000 leadThirtyState
    ⟨1, "37 Jubilation", "gfs_global", "temperature_2m", 3 / 2, .h48⟩ 1
    [rawRunExample] ⟨1, "gfs_global", "temperature_2m", 3600000, 5, 1⟩
  have h30 := lead_time_bucketing 30 7200000 leadThirtyState
    ⟨1, "37 Jubilation", "gfs_global", "temperature_2m", 3 / 2, .h48⟩ 1
    [rawRunExample] ⟨1, "gfs_global", "temperature_2m", 3600000, 5, 1⟩
  have h100 := lead_time_bucketing 100 7200000 leadThirtyState
    ⟨1, "37 Jubilation", "gfs_global", "temperature_2m", 3 / 2, .h48⟩ 1
    [rawRunExample] ⟨1, "gfs_global", "temperature_2m", 3600000, 5, 1⟩
  refine ⟨⟨by decide, h10.1.1 (by decide)⟩,
    ⟨by decide, by decide, h30.1.2.1 (by decide) (by decide)⟩,
    ⟨by decide, h100.1.2.2 (by decide)⟩, ?_, ?_⟩
  · refine h30.2.2.1 ?_
    rw [leadThirty_pairs]
    exact List.mem_map_of_mem _ (List.mem_singleton_self _)
  · refine h30.2.2.2.1 ?_
    rw [storeExample_eq]
    exact List.mem_singleton_self _

/-- C7. acquireLease returns true and writes the candidate as holder with
the current timestamp exactly when the read found no lease row, found one
whose age strictly exceeds the 90-second lease duration, or found the
candidate itself as holder; in every other case it returns false and the
stored lease is unchanged. -/
theorem acquire_lease_iff (s : Option Lease) (now : ℤ) (me : String) :
    ((acquireLease s now me).1 = true ↔
      (s = none ∨ ∃ l, s = some l ∧
        (LEASE_DURATION < now - l.timestamp ∨ l.holderId = me))) ∧
    ((acquireLease s now me).1 = true →
      (acquireLease s now me).2 = some ⟨LEASE_ID, me, now⟩) ∧
    ((acquireLease s now me).1 = false →
      (acquireLease s now me).2 = s) := by
  cases s with
  | none => simp [acquireLease, leaseFree]
  | some l =>
      by_cases h1 : LEASE_DURATION < now - l.timestamp
      · simp [acquireLease, leaseFree, h1]
      · by_cases h2 : l.holderId = me
        · simp [acquireLease, leaseFree, h1, h2]
        · simp [acquireLease, leaseFree, h1, h2]

/-- Witness for C7: acquiring on an empty lease row succeeds and writes the
candidate with the current timestamp. -/
theorem acquire_lease_iff_witness :
    (acquireLease none 0 "a").1 = true ∧
    (acquireLease none 0 "a").2 = some ⟨LEASE_ID, "a", 0⟩ :=
  ⟨by decide, (acquire_lease_iff none 0 "a").2.1 (by decide)⟩

/-- C8. The race the lease protocol was claimed to exclude: with the read
and the conditional write in two separate storage transactions, the
interleaving read-A, read-B, write-A, write-B over an empty lease row lets
both candidates return true, while the serialized schedule lets exactly
one of them in. -/
theorem lease_acquire_race_both_succeed :
    ((runSchedule 0 "a" "b" [true, false, true, false]
        ⟨none, .start, .start⟩).pa = Phase.done true ∧
     (runSchedule 0 "a" "b" [true, false, true, false]
        ⟨none, .start, .start⟩).pb = Phase.done true) ∧
    ((runSchedule 0 "a" "b" [true, true, false, false]
        ⟨none, .start, .start⟩).pa = Phase.done true ∧
     (runSchedule 0 "a" "b" [true, true, false, false]
        ⟨none, .start, .start⟩).pb = Phase.done false) := by
  refine ⟨⟨by decide, by decide⟩, ⟨by decide, by decide⟩⟩

/-- C9. addActualWeather is an idempotent insert-or-ignore on the unique
(locationId, time) key: inserting a record whose key is already present
leaves the store unchanged, adding twice equals adding once, and the
store never acquires two records with the same key. -/
theorem addActualWeather_idempotent (s : List ActualRecord)
    (r : ActualRecord) :
    addActualWeather (addActualWeather s r) r = addActualWeather s r ∧
    ((∃ a ∈ s, a.locationId = r.locationId ∧ a.time = r.time) →
      addActualWeather s r = s) ∧
    ((s.map (fun a => (a.locationId, a.time))).Nodup →
      ((addActualWeather s r).map
        (fun a => (a.locationId, a.time))).Nodup) := by
  refine ⟨?_, ?_, ?_⟩
  · by_cases h : s.any
        (fun a => a.locationId == r.locationId && a.time == r.time)
    · simp [addActualWeather, h]
    · have h2 : (s ++ [r]).any
          (fun a => a.locationId == r.locationId && a.time == r.time) =
          true := by
        rw [List.any_append]
        simp
      simp [addActualWeather, h, h2]
  · rintro ⟨a, ha, hl, ht⟩
    have h : s.any
        (fun a => a.locationId == r.locationId && a.time == r.time) =
        true :=
      List.any_eq_true.mpr ⟨a, ha, by simp [hl, ht]⟩
    simp [addActualWeather, h]
  · intro hnd
    by_cases h : s.any
        (fun a => a.locationId == r.locationId && a.time == r.time)
    · simpa [addActualWeather, h] using hnd
    · have hnot : (r.locationId, r.time) ∉
          s.map (fun a => (a.locationId, a.time)) := by
        intro hmem
        obtain ⟨a, ha, heq⟩ := List.mem_map.mp hmem
        have heq2 : a.locationId = r.locationId ∧ a.time = r.time := by
          constructor <;> [exact congrArg Prod.fst heq;
            exact congrArg Prod.snd heq]
        have : s.any
            (fun a => a.locationId == r.locationId && a.time == r.time) =
            true :=
          List.any_eq_true.mpr ⟨a, ha, by simp [heq2.1, heq2.2]⟩
        rw [this] at h
        exact h rfl
      simp only [addActualWeather, h, Bool.false_eq_true, if_false]
      rw [List.map_append, List.nodup_append]
      refine ⟨hnd, by simp, ?_⟩
      intro x hx
      simp only [List.map_cons, List.map_nil, List.mem_cons,
        List.not_mem_nil, or_false]
      intro hxr
      rw [hxr] at hx
      exact hnot hx

/-- Witness for C9 at a concrete store and record. -/
theorem addActualWeather_idempotent_witness :
    (∃ a ∈ [(⟨1, 0, []⟩ : ActualRecord)], a.locationId = (1 : ℤ) ∧
      a.time = (0 : ℤ)) ∧
    addActualWeather [⟨1, 0, []⟩] ⟨1, 0, [("rain", JsVal.num 1)]⟩ =
      [⟨1, 0, []⟩] ∧
    addActualWeather (addActualWeather [⟨1, 0, []⟩] ⟨2, 0, []⟩) ⟨2, 0, []⟩ =
      addActualWeather [⟨1, 0, []⟩] ⟨2, 0, []⟩ :=
  ⟨⟨⟨1, 0, []⟩, List.mem_singleton_self _, rfl, rfl⟩,
   (addActualWeather_idempotent [⟨1, 0, []⟩]
      ⟨1, 0, [("rain", JsVal.num 1)]⟩).2.1
     ⟨⟨1, 0, []⟩, List.mem_singleton_self _, rfl, rfl⟩,
   (addActualWeather_idempotent [⟨1, 0, []⟩] ⟨2, 0, []⟩).1⟩

/-- C10. Every pending forecast point the storage step emits has lead time
at least 1 hour (the warm-up threshold), target time at most
ACCURACY_MAX_FORECAST_HOURS = 120 hours past the fetch time, and a
forecasted value drawn from a finite numeric cell of the raw results;
points beyond the horizon, with sub-1-hour lead or with non-finite values
are never stored. -/
theorem stored_pending_forecast_invariants (now locId : ℤ)
    (rs : List RawResult) (f : NewPendingForecast)
    (h : f ∈ storeFutureForecasts now locId rs) :
    ACCURACY_FORECAST_START_HOUR ≤ f.forecastLeadTimeHours ∧
    f.targetTime ≤ now + ACCURACY_MAX_FORECAST_HOURS * 3600 * 1000 ∧
    f.forecastedValue ∈ finiteCells rs ∧
    ACCURACY_MAX_FORECAST_HOURS = 120 ∧
    ACCURACY_FORECAST_START_HOUR = 1 := by
  obtain ⟨h1, h2, h3⟩ := storeFutureForecasts_mem h
  exact ⟨h1, h2, h3, rfl, rfl⟩

/-- Witness for C10 at a concrete raw run: the stored point satisfies all
three invariants. -/
theorem stored_pending_forecast_invariants_witness :
    (⟨1, "gfs_global", "temperature_2m", 3600000, 5, 1⟩ :
      NewPendingForecast) ∈ storeFutureForecasts 7200000 1 [rawRunExample] ∧
    ACCURACY_FORECAST_START_HOUR ≤ (1 : ℤ) ∧
    (3600000 : ℤ) ≤ 7200000 + ACCURACY_MAX_FORECAST_HOURS * 3600 * 1000 ∧
    (5 : ℚ) ∈ finiteCells [rawRunExample] := by
  have hmem : (⟨1, "gfs_global", "temperature_2m", 3600000, 5, 1⟩ :
      NewPendingForecast) ∈ storeFutureForecasts 7200000 1 [rawRunExample] := by
    rw [storeExample_eq]
    exact List.mem_singleton_self _
  have h := stored_pending_forecast_invariants 7200000 1 [rawRunExample] _ hmem
  exact ⟨hmem, h.1, h.2.1, h.2.2.1⟩

end Climatus
